import Mathlib

/-!
Verification of the rule-based element-hiding engine in `src/content.js`.

The DOM is modelled as a finite tree of elements.  Each element carries the
observable fields the script reads (tag name, class list, attributes, the
resolved `href` property, the `title` property, `textContent`) together with
its `style.display` value and its children.  `document.querySelectorAll(sel)`
followed by `elements.forEach(hideElement)` is modelled as a structural map
that sets `display` to `"none"` on every node satisfying the selector's
predicate; an invalid selector string makes the call throw a `SyntaxError`,
modelled with `Except`.  The selector language is modelled on the fragment the
script actually builds: `.cls`, bare tag names, `a[href*="v"]` and
`[attr="v"]`.  Strings are ASCII; `toLowerCase`/`toUpperCase` are modelled
per character.
-/

/-- One character of a CSS identifier (the fragment the script interpolates). -/
def isIdentChar (c : Char) : Bool := c.isAlphanum || c == '-' || c == '_'

/-- CSS identifier on a character list: nonempty, identifier characters only,
not starting with a digit.  This is a partial model of the CSS ident grammar
(escapes, unicode, and the leading minus-digit corner are out of scope): the
development uses acceptance only as the `wellFormed` side condition of its
universal theorems, and relies on rejection only at concrete inputs (such as
`"("`) that real CSS also rejects. -/
def isIdentL : List Char → Bool
  | [] => false
  | c :: cs => (!c.isDigit) && (c :: cs).all isIdentChar

/-- CSS identifier check for a selector token (see `isIdentL` for the
modelling contract). -/
def isIdent (s : String) : Bool := isIdentL s.data

/-- A value that can sit inside a double-quoted CSS attribute-selector string
without breaking the selector's syntax.  Acceptance is sound (such a value
cannot terminate the quoted string or start an escape); rejection is a
conservative boundary of the modelled fragment on which no theorem relies. -/
def isQuotable (s : String) : Bool := s.data.all (fun c => !(c == '"') && !(c == '\\'))

def listStartsWithL : List Char → List Char → Bool
  | _, [] => true
  | [], _ :: _ => false
  | c :: cs, p :: ps => c == p && listStartsWithL cs ps

def listContainsSubL : List Char → List Char → Bool
  | [], pat => pat.isEmpty
  | c :: cs, pat => listStartsWithL (c :: cs) pat || listContainsSubL cs pat

/-- JS `String.prototype.includes` (substring containment; every string
contains the empty string). -/
def strContains (s pat : String) : Bool := listContainsSubL s.data pat.data

/-- JS `toLowerCase`, per character (ASCII). -/
def strLower (s : String) : String := String.mk (s.data.map Char.toLower)

/-- JS `toUpperCase`, per character (ASCII). -/
def strUpper (s : String) : String := String.mk (s.data.map Char.toUpper)

/-- The observable, selector-relevant data of one DOM element: everything the
script reads except `style.display` and the children.  `href` is the resolved
`href` *property* of an anchor (an absolute URL), while the literal `href`
*attribute* lives in `attrs`; the two can differ (relative URLs are resolved
against the page origin).  `title` is the `title` property (the empty string
when the attribute is absent). -/
structure ElemData where
  tagName : String
  classes : List String
  attrs : List (String × String)
  href : String
  title : String
  textContent : String

mutual
/-- A DOM element tree: observable data, `style.display`, and children. -/
inductive Element : Type where
  | mk (data : ElemData) (display : String) (children : Forest)
/-- The ordered children of an element. -/
inductive Forest : Type where
  | nil
  | cons (e : Element) (es : Forest)
end

def Element.data : Element → ElemData
  | .mk d _ _ => d

def Element.display : Element → String
  | .mk _ disp _ => disp

def Element.children : Element → Forest
  | .mk _ _ ch => ch

/-- Build a forest from a list of elements (notation convenience). -/
def Forest.ofList : List Element → Forest
  | [] => .nil
  | e :: es => .cons e (Forest.ofList es)

/-- JS `element.getAttribute(name)`: the literal attribute value, `null`
(modelled `none`) when absent. -/
def ElemData.getAttribute (d : ElemData) (name : String) : Option String :=
  (d.attrs.find? (fun p => p.1 == name)).map Prod.snd

def Element.getAttribute (e : Element) (name : String) : Option String :=
  e.data.getAttribute name

/-- Addressing a node inside a forest: `i` selects the root of the `i`-th
tree, the remaining path descends into its children. -/
def atForest : Forest → Nat → List Nat → Option Element
  | .nil, _, _ => none
  | .cons (.mk d disp ch) es, i, path =>
    match i, path with
    | 0, [] => some (.mk d disp ch)
    | 0, j :: js => atForest ch j js
    | i' + 1, _ => atForest es i' path

/-- The node of a tree at a path of child indices (`[]` is the root). -/
def atPathE (e : Element) : List Nat → Option Element
  | [] => some e
  | i :: is =>
    match e with
    | .mk _ _ ch => atForest ch i is

/-- `hideElement` from content.js line 4: `element.style.display = 'none'`.
Only the node's own display changes; data and children are untouched. -/
def hideElement : Element → Element
  | .mk d _ ch => .mk d "none" ch

/-- Hide (set `display` to `"none"`) every node of the forest satisfying `p`;
`p` is evaluated on the original nodes, as `querySelectorAll` snapshots its
result list before the `forEach` runs. -/
def hideWhereForest (p : Element → Bool) : Forest → Forest
  | .nil => .nil
  | .cons (.mk d disp ch) es =>
    .cons (.mk d (if p (.mk d disp ch) then "none" else disp) (hideWhereForest p ch))
      (hideWhereForest p es)

/-- `document.querySelectorAll` + `forEach(hideElement)`: hide every node of
the tree (root included) satisfying `p`. -/
def hideWhereAll (p : Element → Bool) : Element → Element
  | .mk d disp ch =>
    .mk d (if p (.mk d disp ch) then "none" else disp) (hideWhereForest p ch)

/-- `node.querySelectorAll` + `forEach(hideElement)`: hide every *strict
descendant* of the node satisfying `p` (the root itself is not in scope of
`node.querySelectorAll`). -/
def hideWhereDesc (p : Element → Bool) : Element → Element
  | .mk d disp ch => .mk d disp (hideWhereForest p ch)

/-- Predicate of the CSS class selector `.c` (content.js line 9 builds it):
elements whose class list contains the token. -/
def classPred (c : String) (el : Element) : Bool := el.data.classes.contains c

/-- Predicate of a CSS type (tag-name) selector: tag names compare
ASCII-case-insensitively in an HTML document. -/
def tagPred (t : String) (el : Element) : Bool := strUpper el.data.tagName == strUpper t

/-- Predicate of the selector `a[href*="kw"]` (content.js line 14): an anchor
whose literal `href` attribute contains `kw`.  Per the CSS substring-match
rule, an empty `kw` matches nothing. -/
def hrefSelPred (kw : String) (el : Element) : Bool :=
  strUpper el.data.tagName == "A" && (!(kw == "") &&
    (match el.getAttribute "href" with
     | some v => strContains v kw
     | none => false))

/-- The text test of `hideByContent` (content.js line 21):
`el.textContent && el.textContent.toLowerCase().includes(keyword.toLowerCase())`. -/
def contentTextPred (keyword : String) (el : Element) : Bool :=
  !(el.data.textContent == "") &&
    strContains (strLower el.data.textContent) (strLower keyword)

/-- The title test of `hideByTitle` (content.js line 30):
`el.title && el.title.toLowerCase().includes(keyword.toLowerCase())`. -/
def titleTextPred (keyword : String) (el : Element) : Bool :=
  !(el.data.title == "") &&
    strContains (strLower el.data.title) (strLower keyword)

/-- Predicate of the selector `[attr="value"]` (content.js line 37): the
literal attribute equals the value exactly (case-sensitively). -/
def attrEqPred (attr value : String) (el : Element) : Bool :=
  el.getAttribute attr == some value

/-- The CSS engine's reading of a raw selector string handed verbatim to
`querySelectorAll` (as `hideByContent`/`hideByTitle` do with `rule.selector`,
content.js lines 19 and 28).  Modelled on the fragment this development
evaluates: a bare identifier is a type selector and `.ident` is a class
selector.  Selector strings outside this fragment (combinators, `#id`, `*`,
compound selectors, ...) are beyond the model and mapped to `none`; no
theorem relies on that `none` outcome. -/
def evalSelector (s : String) : Option (Element → Bool) :=
  if isIdent s then some (tagPred s)
  else
    match s.data with
    | '.' :: rest => if isIdentL rest then some (classPred (String.mk rest)) else none
    | _ => none

/-- One hide rule, as configured in config.js.  JS rule objects simply omit
the fields a given type does not use; unused fields are irrelevant here and
are carried as strings. -/
structure Rule where
  type : String
  value : String
  selector : String
  attr : String

/-- `hideByClass` (content.js lines 8-11):
`document.querySelectorAll` with the interpolated selector `.${className}`,
then hide each result.  The selector parses iff `className` is a CSS
identifier; otherwise `querySelectorAll` throws a `SyntaxError`. -/
def hideByClass (className : String) (doc : Element) : Except String Element :=
  if isIdent className then .ok (hideWhereAll (classPred className) doc)
  else .error "SyntaxError"

/-- `hideByHref` (content.js lines 13-16): selector `a[href*="${keyword}"]`.
The selector parses iff `keyword` fits inside the double quotes. -/
def hideByHref (keyword : String) (doc : Element) : Except String Element :=
  if isQuotable keyword then .ok (hideWhereAll (hrefSelPred keyword) doc)
  else .error "SyntaxError"

/-- `hideByContent` (content.js lines 18-25): `querySelectorAll(selector)`
with the rule's raw selector string, then hide the results whose text content
contains the keyword case-insensitively. -/
def hideByContent (selector keyword : String) (doc : Element) : Except String Element :=
  match evalSelector selector with
  | some q => .ok (hideWhereAll (fun el => q el && contentTextPred keyword el) doc)
  | none => .error "SyntaxError"

/-- `hideByTitle` (content.js lines 27-34): like `hideByContent` but testing
the `title` property. -/
def hideByTitle (selector keyword : String) (doc : Element) : Except String Element :=
  match evalSelector selector with
  | some q => .ok (hideWhereAll (fun el => q el && titleTextPred keyword el) doc)
  | none => .error "SyntaxError"

/-- `hideByAttribute` (content.js lines 36-39): selector `[${attr}="${value}"]`. -/
def hideByAttribute (attr value : String) (doc : Element) : Except String Element :=
  if isIdent attr && isQuotable value then .ok (hideWhereAll (attrEqPred attr value) doc)
  else .error "SyntaxError"

/-- `applyHideRule` (content.js lines 41-53): dispatch on `rule.type`; an
unknown type falls through every branch and does nothing. -/
def applyHideRule (rule : Rule) (doc : Element) : Except String Element :=
  if rule.type == "class" then hideByClass rule.value doc
  else if rule.type == "href" then hideByHref rule.value doc
  else if rule.type == "content" then hideByContent rule.selector rule.value doc
  else if rule.type == "title" then hideByTitle rule.selector rule.value doc
  else if rule.type == "attribute" then hideByAttribute rule.attr rule.value doc
  else .ok doc

/-- `matchesRule` (content.js lines 55-68), the self-check predicate.  Note
the `href` branch reads the resolved `node.href` *property*, and the
content/title branches compare `node.tagName.toUpperCase()` against
`rule.selector.toUpperCase()` and then run the same truthiness-guarded
substring test as the sweep. -/
def matchesRule (node : Element) (rule : Rule) : Bool :=
  if rule.type == "class" then node.data.classes.contains rule.value
  else if rule.type == "href" then
    node.data.tagName == "A" && strContains node.data.href rule.value
  else if rule.type == "content" then
    tagPred rule.selector node && contentTextPred rule.value node
  else if rule.type == "title" then
    tagPred rule.selector node && titleTextPred rule.value node
  else if rule.type == "attribute" then
    node.getAttribute rule.attr == some rule.value
  else false

/-- Sequential `forEach` of fallible steps threading the document: a thrown
error aborts the remaining steps and propagates to the caller. -/
def exFold (f : Rule → Element → Except String Element) :
    List Rule → Element → Except String Element
  | [], d => .ok d
  | r :: rs, d =>
    match f r d with
    | .error e => .error e
    | .ok d' => exFold f rs d'

/-- `hideAllElements` (content.js lines 107-109): `hideRules.forEach(applyHideRule)`. -/
def hideAllElements (rules : List Rule) (doc : Element) : Except String Element :=
  exFold applyHideRule rules doc

/-- The observable document state after the sweep invocation
`hideRules.forEach(applyHideRule)`, together with the error it threw, if
any.  Unlike `hideAllElements` (which reports only the outcome of a
completed sweep), this keeps the DOM mutations the earlier rules performed
before a throw: the real DOM has no rollback, the first throw merely aborts
the remaining iterations. -/
def sweepState : List Rule → Element → Element × Option String
  | [], doc => (doc, none)
  | r :: rs, doc =>
    match applyHideRule r doc with
    | .error e => (doc, some e)
    | .ok doc' => sweepState rs doc'

/-- `shouldHideNode` (content.js lines 70-72). -/
def shouldHideNode (rules : List Rule) (node : Element) : Bool :=
  rules.any (fun r => matchesRule node r)

/-- The body of the per-rule descendant sweep inside `hideElementsInNode`
(content.js lines 79-104): the same five selector queries, but issued on
`node.querySelectorAll`, so scoped to strict descendants of `node`. -/
def hideRuleDescendants (rule : Rule) (node : Element) : Except String Element :=
  if rule.type == "class" then
    if isIdent rule.value then .ok (hideWhereDesc (classPred rule.value) node)
    else .error "SyntaxError"
  else if rule.type == "href" then
    if isQuotable rule.value then .ok (hideWhereDesc (hrefSelPred rule.value) node)
    else .error "SyntaxError"
  else if rule.type == "content" then
    match evalSelector rule.selector with
    | some q => .ok (hideWhereDesc (fun el => q el && contentTextPred rule.value el) node)
    | none => .error "SyntaxError"
  else if rule.type == "title" then
    match evalSelector rule.selector with
    | some q => .ok (hideWhereDesc (fun el => q el && titleTextPred rule.value el) node)
    | none => .error "SyntaxError"
  else if rule.type == "attribute" then
    if isIdent rule.attr && isQuotable rule.value then
      .ok (hideWhereDesc (attrEqPred rule.attr rule.value) node)
    else .error "SyntaxError"
  else .ok node

/-- `hideElementsInNode` (content.js lines 74-105): the self-check first
(hide `node` itself when any rule matches it), then the per-rule descendant
sweep scoped to `node`. -/
def hideElementsInNode (rules : List Rule) (node : Element) : Except String Element :=
  exFold hideRuleDescendants rules
    (if shouldHideNode rules node then hideElement node else node)

/-- A DOM node as delivered in `mutation.addedNodes`: only element nodes
(`nodeType === Node.ELEMENT_NODE`) are processed. -/
inductive DOMNode : Type where
  | element (e : Element)
  | text (s : String)
  | comment (s : String)

/-- One `MutationRecord` of a batch. -/
structure MutationRecord where
  type : String
  addedNodes : List DOMNode

/-- Sequential fallible map, aborting on the first thrown error. -/
def exList {α β : Type} (f : α → Except String β) : List α → Except String (List β)
  | [] => .ok []
  | a :: as =>
    match f a with
    | .error e => .error e
    | .ok b =>
      match exList f as with
      | .error e => .error e
      | .ok bs => .ok (b :: bs)

/-- The added-node handling (content.js lines 122-126): element nodes go
through `hideElementsInNode`, other node kinds are skipped. -/
def processAddedNode (rules : List Rule) : DOMNode → Except String DOMNode
  | .element e =>
    match hideElementsInNode rules e with
    | .error err => .error err
    | .ok e' => .ok (.element e')
  | n => .ok n

/-- One record of the batch (content.js lines 120-128): only `childList`
records are examined. -/
def processMutation (rules : List Rule) (m : MutationRecord) : Except String MutationRecord :=
  if m.type == "childList" then
    match exList (processAddedNode rules) m.addedNodes with
    | .error err => .error err
    | .ok ns => .ok (.mk m.type ns)
  else .ok m

/-- The MutationObserver callback (content.js lines 119-129): process the
records of the delivered batch in order. -/
def mutationCallback (rules : List Rule) (muts : List MutationRecord) :
    Except String (List MutationRecord) :=
  exList (processMutation rules) muts

/-- The five rule type tags `applyHideRule` dispatches on. -/
def knownType (t : String) : Bool :=
  t == "class" || t == "href" || t == "content" || t == "title" || t == "attribute"

/-- A well-formed rule in the sense of the spec's data model: a known type
tag, selector-safe values, and (for content/title rules) a `selector` field
that is a plain tag name. -/
def wellFormed (r : Rule) : Bool :=
  if r.type == "class" then isIdent r.value
  else if r.type == "href" then isQuotable r.value
  else if r.type == "content" then isIdent r.selector
  else if r.type == "title" then isIdent r.selector
  else if r.type == "attribute" then isIdent r.attr && isQuotable r.value
  else false

/-- The predicate by which the document-wide sweep (and the scoped descendant
sweep) of a well-formed rule selects elements. -/
def queryPred (r : Rule) : Element → Bool :=
  if r.type == "class" then classPred r.value
  else if r.type == "href" then hrefSelPred r.value
  else if r.type == "content" then fun el => tagPred r.selector el && contentTextPred r.value el
  else if r.type == "title" then fun el => tagPred r.selector el && titleTextPred r.value el
  else if r.type == "attribute" then attrEqPred r.attr r.value
  else fun _ => false

/-- The disjunction of the query predicates of a rule list. -/
def anyQueryPred (rules : List Rule) (e : Element) : Bool :=
  rules.any (fun r => queryPred r e)

/-- Evolution of a document under the hiding operations: every node survives
at its path with its observable data intact, and its display either unchanged
or set to `"none"`. -/
def Evolves (d d' : Element) : Prop :=
  ∀ path e, atPathE d path = some e →
    ∃ e', atPathE d' path = some e' ∧ e'.data = e.data ∧
      (e'.display = e.display ∨ e'.display = "none")

/-- Build an element from its fields. -/
def mkEl (tag : String) (classes : List String) (attrs : List (String × String))
    (href title text disp : String) (ch : List Element) : Element :=
  .mk ⟨tag, classes, attrs, href, title, text⟩ disp (Forest.ofList ch)

/- Concrete test data.  An anchor written with a relative `href` attribute:
the browser resolves the `href` property against the page origin, so the
property contains `"https"` while the literal attribute does not. -/

def anchorRel : Element := mkEl "A" [] [("href", "/p")] "https://x.com/p" "" "" "" []

def docHrefGap : Element := mkEl "DIV" [] [] "" "" "" "" [anchorRel]

def ruleHrefHttps : Rule := Rule.mk "href" "https" "" ""

def ruleClassAd : Rule := Rule.mk "class" "promoAd" "" ""

def docClassAd : Element := mkEl "DIV" ["promoAd"] [] "" "" "" "" []

def docClassAdHidden : Element := mkEl "DIV" ["promoAd"] [] "" "" "" "none" []

def anchorRel2 : Element := mkEl "A" [] [("href", "/q")] "https://y.com/q" "" "" "" []

def divIns : Element := mkEl "DIV" [] [] "" "" "" "" [anchorRel2]

def mutIns : MutationRecord := MutationRecord.mk "childList" [DOMNode.element divIns]

def childAd : Element := mkEl "DIV" ["promoAd"] [] "" "" "" "" []

def divInsW : Element := mkEl "DIV" [] [] "" "" "" "" [childAd]

def mutInsW : MutationRecord := MutationRecord.mk "childList" [DOMNode.element divInsW]

def ruleBadParen : Rule := Rule.mk "class" "(" "" ""

def ruleClassGood : Rule := Rule.mk "class" "promoX" "" ""

def docPromoX : Element := mkEl "DIV" ["promoX"] [] "" "" "" "" []

def docPromoXHidden : Element := mkEl "DIV" ["promoX"] [] "" "" "" "none" []

def ruleUnknownBlink : Rule := Rule.mk "blink" "x" "" ""

def docPreHidden : Element := mkEl "DIV" [] [] "" "" "" "none" []

def ruleDataArea : Rule := Rule.mk "attribute" "splash" "" "data-area"

def elSplash : Element := mkEl "DIV" [] [("data-area", "splash")] "" "" "" "" []

def elSplashExtra : Element := mkEl "DIV" [] [("data-area", "splash-extra")] "" "" "" "" []

def elSplashCase : Element := mkEl "DIV" [] [("data-area", "Splash")] "" "" "" "" []

def docSplash : Element := mkEl "BODY" [] [] "" "" "" "" [elSplash, elSplashExtra]

def elSplashHidden : Element := mkEl "DIV" [] [("data-area", "splash")] "" "" "" "none" []

def docSplashAfter : Element := mkEl "BODY" [] [] "" "" "" "" [elSplashHidden, elSplashExtra]

def ruleDotPromo : Rule := Rule.mk "content" "x" ".promo" ""

def divPromo : Element := mkEl "DIV" ["promo"] [] "" "" "xy" "" []

def docDotPromo : Element := mkEl "BODY" [] [] "" "" "" "" [divPromo]

def divPromoHidden : Element := mkEl "DIV" ["promo"] [] "" "" "xy" "none" []

def docDotPromoAfter : Element := mkEl "BODY" [] [] "" "" "" "" [divPromoHidden]

def ruleSpanYB : Rule := Rule.mk "content" "Yasmin Brunet" "span" ""

def spanYB : Element := mkEl "SPAN" [] [] "" "" "Yasmin Brunet entrevista" "" []

def divYB : Element := mkEl "DIV" [] [] "" "" "Yasmin Brunet entrevista" "" []

def docYB : Element := mkEl "BODY" [] [] "" "" "" "" [spanYB, divYB]

def spanYBHidden : Element := mkEl "SPAN" [] [] "" "" "Yasmin Brunet entrevista" "none" []

def docYBAfter : Element := mkEl "BODY" [] [] "" "" "" "" [spanYBHidden, divYB]

def ruleClassA7 : Rule := Rule.mk "class" "adA" "" ""

def ruleClassB7 : Rule := Rule.mk "class" "adB" "" ""

def docPerm : Element := mkEl "DIV" ["adA"] [] "" "" "" "" [mkEl "P" ["adB"] [] "" "" "" "" []]

def elP : Element := mkEl "P" [] [] "" "" "" "" []

def docFrame : Element := mkEl "DIV" ["x"] [] "" "" "" "" [elP]

def childAdHidden : Element := mkEl "DIV" ["promoAd"] [] "" "" "" "none" []

def divInsWAfter : Element := mkEl "DIV" [] [] "" "" "" "" [childAdHidden]

def mutInsWAfter : MutationRecord := MutationRecord.mk "childList" [DOMNode.element divInsWAfter]

def emptyTextSpan : Element := mkEl "SPAN" [] [] "" "" "" "" []

def docEmptyText : Element := mkEl "BODY" [] [] "" "" "" "" [emptyTextSpan]

def anchorProm : Element := mkEl "A" [] [("href", "/promo")] "https://site.com/promo" "" "" "" []

def docProm : Element := mkEl "DIV" [] [] "" "" "" "" [anchorProm]

/-! ### Structural lemmas about the hiding map -/

theorem hideWhereAll_data (p : Element → Bool) (e : Element) :
    (hideWhereAll p e).data = e.data := by
  cases e; rfl

theorem hideWhereAll_display (p : Element → Bool) (e : Element) :
    (hideWhereAll p e).display = if p e then "none" else e.display := by
  cases e; rfl

theorem hideWhereDesc_data (p : Element → Bool) (e : Element) :
    (hideWhereDesc p e).data = e.data := by
  cases e; rfl

theorem hideWhereDesc_display (p : Element → Bool) (e : Element) :
    (hideWhereDesc p e).display = e.display := by
  cases e; rfl

theorem hideElement_data (e : Element) : (hideElement e).data = e.data := by
  cases e; rfl

theorem hideElement_display (e : Element) : (hideElement e).display = "none" := by
  cases e; rfl

theorem hideElement_children (e : Element) : (hideElement e).children = e.children := by
  cases e; rfl

theorem atForest_hideWhereForest (p : Element → Bool) :
    ∀ (es : Forest) (i : Nat) (path : List Nat),
      atForest (hideWhereForest p es) i path = (atForest es i path).map (hideWhereAll p)
  | .nil, _, _ => rfl
  | .cons (.mk _ _ _) _, 0, [] => rfl
  | .cons (.mk _ _ ch) _, 0, _ :: js => atForest_hideWhereForest p ch _ js
  | .cons (.mk _ _ _) es, _ + 1, path => atForest_hideWhereForest p es _ path

theorem atPathE_hideWhereAll (p : Element → Bool) (e : Element) (path : List Nat) :
    atPathE (hideWhereAll p e) path = (atPathE e path).map (hideWhereAll p) := by
  cases e with
  | mk d disp ch =>
    cases path with
    | nil => rfl
    | cons i is => exact atForest_hideWhereForest p ch i is

theorem atPathE_hideWhereDesc_cons (p : Element → Bool) (e : Element) (i : Nat) (is : List Nat) :
    atPathE (hideWhereDesc p e) (i :: is) = (atPathE e (i :: is)).map (hideWhereAll p) := by
  cases e with
  | mk d disp ch => exact atForest_hideWhereForest p ch i is

theorem atPathE_hideElement_cons (e : Element) (i : Nat) (is : List Nat) :
    atPathE (hideElement e) (i :: is) = atPathE e (i :: is) := by
  cases e; rfl

theorem atPathE_nil (e : Element) : atPathE e [] = some e := rfl

/-! ### Evolution: hiding operations keep every node in place, with its
observable data intact, only possibly turning its display to `"none"` -/

theorem evolves_refl (d : Element) : Evolves d d :=
  fun _ e h => ⟨e, h, rfl, Or.inl rfl⟩

theorem evolves_trans {a b c : Element} (h1 : Evolves a b) (h2 : Evolves b c) :
    Evolves a c := by
  intro path e he
  obtain ⟨e1, he1, hd1, ho1⟩ := h1 path e he
  obtain ⟨e2, he2, hd2, ho2⟩ := h2 path e1 he1
  refine ⟨e2, he2, hd2.trans hd1, ?_⟩
  rcases ho2 with h | h
  · rcases ho1 with h' | h'
    · exact Or.inl (h.trans h')
    · exact Or.inr (h.trans h')
  · exact Or.inr h

theorem evolves_hideWhereAll (p : Element → Bool) (d : Element) :
    Evolves d (hideWhereAll p d) := by
  intro path e he
  refine ⟨hideWhereAll p e, ?_, hideWhereAll_data p e, ?_⟩
  · rw [atPathE_hideWhereAll, he]; rfl
  · rw [hideWhereAll_display]
    split
    · exact Or.inr rfl
    · exact Or.inl rfl

theorem evolves_hideWhereDesc (p : Element → Bool) (d : Element) :
    Evolves d (hideWhereDesc p d) := by
  intro path e he
  cases path with
  | nil =>
    rw [atPathE_nil] at he
    cases he
    exact ⟨hideWhereDesc p d, atPathE_nil _, hideWhereDesc_data p d,
      Or.inl (hideWhereDesc_display p d)⟩
  | cons i is =>
    refine ⟨hideWhereAll p e, ?_, hideWhereAll_data p e, ?_⟩
    · rw [atPathE_hideWhereDesc_cons, he]; rfl
    · rw [hideWhereAll_display]
      split
      · exact Or.inr rfl
      · exact Or.inl rfl

theorem evolves_hideElement (d : Element) : Evolves d (hideElement d) := by
  intro path e he
  cases path with
  | nil =>
    rw [atPathE_nil] at he
    cases he
    exact ⟨hideElement d, atPathE_nil _, hideElement_data d, Or.inr (hideElement_display d)⟩
  | cons i is =>
    exact ⟨e, by rw [atPathE_hideElement_cons]; exact he, rfl, Or.inl rfl⟩

/-! ### Inversion of the query-based hiding operations -/

theorem hideByClass_ok {c : String} {doc doc' : Element}
    (h : hideByClass c doc = .ok doc') :
    doc' = hideWhereAll (classPred c) doc := by
  unfold hideByClass at h
  split at h
  · exact (Except.ok.inj h).symm
  · cases h

theorem hideByHref_ok {kw : String} {doc doc' : Element}
    (h : hideByHref kw doc = .ok doc') :
    doc' = hideWhereAll (hrefSelPred kw) doc := by
  unfold hideByHref at h
  split at h
  · exact (Except.ok.inj h).symm
  · cases h

theorem hideByContent_ok {sel kw : String} {doc doc' : Element}
    (h : hideByContent sel kw doc = .ok doc') :
    ∃ q, evalSelector sel = some q ∧
      doc' = hideWhereAll (fun el => q el && contentTextPred kw el) doc := by
  unfold hideByContent at h
  split at h
  · next q hq => exact ⟨q, hq, (Except.ok.inj h).symm⟩
  · cases h

theorem hideByTitle_ok {sel kw : String} {doc doc' : Element}
    (h : hideByTitle sel kw doc = .ok doc') :
    ∃ q, evalSelector sel = some q ∧
      doc' = hideWhereAll (fun el => q el && titleTextPred kw el) doc := by
  unfold hideByTitle at h
  split at h
  · next q hq => exact ⟨q, hq, (Except.ok.inj h).symm⟩
  · cases h

theorem hideByAttribute_ok {a v : String} {doc doc' : Element}
    (h : hideByAttribute a v doc = .ok doc') :
    doc' = hideWhereAll (attrEqPred a v) doc := by
  unfold hideByAttribute at h
  split at h
  · exact (Except.ok.inj h).symm
  · cases h

theorem applyHideRule_evolves {r : Rule} {doc doc' : Element}
    (h : applyHideRule r doc = .ok doc') : Evolves doc doc' := by
  unfold applyHideRule at h
  split_ifs at h
  · rw [hideByClass_ok h]; exact evolves_hideWhereAll _ _
  · rw [hideByHref_ok h]; exact evolves_hideWhereAll _ _
  · obtain ⟨q, _, rfl⟩ := hideByContent_ok h; exact evolves_hideWhereAll _ _
  · obtain ⟨q, _, rfl⟩ := hideByTitle_ok h; exact evolves_hideWhereAll _ _
  · rw [hideByAttribute_ok h]; exact evolves_hideWhereAll _ _
  · cases h; exact evolves_refl _

theorem hideRuleDescendants_evolves {r : Rule} {nd nd' : Element}
    (h : hideRuleDescendants r nd = .ok nd') : Evolves nd nd' := by
  unfold hideRuleDescendants at h
  split_ifs at h <;> try split at h
  all_goals cases h <;> first
    | exact evolves_hideWhereDesc _ _
    | exact evolves_refl _

theorem exFold_ok_cons {f : Rule → Element → Except String Element} {r : Rule}
    {rs : List Rule} {d d'' : Element} (h : exFold f (r :: rs) d = .ok d'') :
    ∃ d', f r d = .ok d' ∧ exFold f rs d' = .ok d'' := by
  unfold exFold at h
  split at h
  · cases h
  · next d' hd' => exact ⟨d', hd', h⟩

theorem exFold_append_ok {f : Rule → Element → Except String Element} {l₁ : List Rule}
    {r : Rule} {l₂ : List Rule} {doc doc' : Element}
    (h : exFold f (l₁ ++ r :: l₂) doc = .ok doc') :
    ∃ d₁ d₂, exFold f l₁ doc = .ok d₁ ∧ f r d₁ = .ok d₂ ∧ exFold f l₂ d₂ = .ok doc' := by
  induction l₁ generalizing doc with
  | nil =>
    obtain ⟨d', hf, hrest⟩ := exFold_ok_cons h
    exact ⟨doc, d', rfl, hf, hrest⟩
  | cons a as ih =>
    rw [List.cons_append] at h
    obtain ⟨d', hf, hrest⟩ := exFold_ok_cons h
    obtain ⟨d₁, d₂, h1, h2, h3⟩ := ih hrest
    refine ⟨d₁, d₂, ?_, h2, h3⟩
    unfold exFold
    rw [hf]
    exact h1

/-! ### The sweep of a well-formed rule is exactly `hideWhereAll` of its
query predicate, and that predicate agrees with the self-check `matchesRule`
except on `href` rules -/

theorem queryPred_data {r : Rule} {e e' : Element} (h : e'.data = e.data) :
    queryPred r e' = queryPred r e := by
  unfold queryPred
  split_ifs <;>
    simp [classPred, hrefSelPred, tagPred, contentTextPred, titleTextPred,
      attrEqPred, Element.getAttribute, h]

theorem applyHideRule_wf_ok {r : Rule} (doc : Element) (hwf : wellFormed r = true) :
    applyHideRule r doc = .ok (hideWhereAll (queryPred r) doc) := by
  unfold wellFormed at hwf
  unfold applyHideRule queryPred
  split_ifs at hwf ⊢ <;>
    simp [hideByClass, hideByHref, hideByContent, hideByTitle, hideByAttribute,
      evalSelector, hwf]

theorem hideRuleDescendants_wf_ok {r : Rule} (nd : Element) (hwf : wellFormed r = true) :
    hideRuleDescendants r nd = .ok (hideWhereDesc (queryPred r) nd) := by
  unfold wellFormed at hwf
  unfold hideRuleDescendants queryPred
  split_ifs at hwf ⊢ <;>
    first
      | rfl
      | simp_all [evalSelector]

theorem queryPred_eq_matches {r : Rule} (e : Element) (hwf : wellFormed r = true) :
    queryPred r e =
      (if r.type == "href" then hrefSelPred r.value e else matchesRule e r) := by
  unfold wellFormed at hwf
  unfold queryPred matchesRule
  split_ifs at hwf ⊢ <;>
    first
      | rfl
      | simp_all [classPred, attrEqPred, Element.getAttribute]

theorem exFold_evolves {f : Rule → Element → Except String Element}
    (hf : ∀ r d d', f r d = .ok d' → Evolves d d') :
    ∀ {l : List Rule} {doc doc' : Element}, exFold f l doc = .ok doc' → Evolves doc doc' := by
  intro l
  induction l with
  | nil =>
    intro doc doc' h
    cases h
    exact evolves_refl _
  | cons r rs ih =>
    intro doc doc' h
    obtain ⟨d', h1, h2⟩ := exFold_ok_cons h
    exact evolves_trans (hf _ _ _ h1) (ih h2)

/-! ### Order-independence: composing hides, canonical form of the sweep -/

theorem if_or_none (a b : Bool) (s : String) :
    (if b then "none" else if a then "none" else s) = if (a || b) then "none" else s := by
  cases a <;> cases b <;> simp

theorem hideWhereForest_comp (p q : Element → Bool)
    (hp : ∀ e e' : Element, e'.data = e.data → p e' = p e) :
    ∀ es : Forest,
      hideWhereForest p (hideWhereForest q es) = hideWhereForest (fun e => q e || p e) es
  | .nil => rfl
  | .cons (.mk d disp ch) es => by
    simp only [hideWhereForest]
    rw [hideWhereForest_comp p q hp ch, hideWhereForest_comp p q hp es]
    have hpe : p (.mk d (if q (.mk d disp ch) then "none" else disp) (hideWhereForest q ch))
        = p (.mk d disp ch) := hp _ _ rfl
    rw [hpe, if_or_none]

theorem hideWhereAll_comp (p q : Element → Bool)
    (hp : ∀ e e' : Element, e'.data = e.data → p e' = p e) (doc : Element) :
    hideWhereAll p (hideWhereAll q doc) = hideWhereAll (fun e => q e || p e) doc := by
  cases doc with
  | mk d disp ch =>
    simp only [hideWhereAll]
    rw [hideWhereForest_comp p q hp ch]
    have hpe : p (.mk d (if q (.mk d disp ch) then "none" else disp) (hideWhereForest q ch))
        = p (.mk d disp ch) := hp _ _ rfl
    rw [hpe, if_or_none]

theorem hideWhereDesc_comp (p q : Element → Bool)
    (hp : ∀ e e' : Element, e'.data = e.data → p e' = p e) (nd : Element) :
    hideWhereDesc p (hideWhereDesc q nd) = hideWhereDesc (fun e => q e || p e) nd := by
  cases nd with
  | mk d disp ch =>
    simp only [hideWhereDesc]
    rw [hideWhereForest_comp p q hp ch]

theorem hideWhereForest_false :
    ∀ es : Forest, hideWhereForest (fun _ => false) es = es
  | .nil => rfl
  | .cons (.mk d disp ch) es => by
    simp only [hideWhereForest]
    rw [hideWhereForest_false ch, hideWhereForest_false es]
    simp

theorem hideWhereAll_false (doc : Element) : hideWhereAll (fun _ => false) doc = doc := by
  cases doc with
  | mk d disp ch =>
    simp only [hideWhereAll]
    rw [hideWhereForest_false ch]
    simp

theorem hideWhereDesc_false (nd : Element) : hideWhereDesc (fun _ => false) nd = nd := by
  cases nd with
  | mk d disp ch =>
    simp only [hideWhereDesc]
    rw [hideWhereForest_false ch]

theorem anyQueryPred_data {rules : List Rule} {e e' : Element} (h : e'.data = e.data) :
    anyQueryPred rules e' = anyQueryPred rules e := by
  unfold anyQueryPred
  congr 1
  funext r
  exact queryPred_data h

theorem anyQueryPred_nil (e : Element) : anyQueryPred [] e = false := rfl

theorem anyQueryPred_cons (r : Rule) (rs : List Rule) (e : Element) :
    anyQueryPred (r :: rs) e = (queryPred r e || anyQueryPred rs e) := rfl

theorem hideAllElements_canonical (rules : List Rule) (doc : Element)
    (hwf : ∀ r ∈ rules, wellFormed r = true) :
    hideAllElements rules doc = .ok (hideWhereAll (anyQueryPred rules) doc) := by
  induction rules generalizing doc with
  | nil =>
    show Except.ok doc = _
    rw [show anyQueryPred [] = fun _ => false from rfl, hideWhereAll_false]
  | cons r rs ih =>
    have hwfr := hwf r (by simp)
    have hstep := applyHideRule_wf_ok doc hwfr
    have ih' := ih (hideWhereAll (queryPred r) doc)
      (fun x hx => hwf x (List.mem_cons_of_mem _ hx))
    unfold hideAllElements at ih' ⊢
    unfold exFold
    rw [hstep]
    dsimp only
    rw [ih']
    rw [hideWhereAll_comp _ _ (fun _ _ h => anyQueryPred_data h) doc]
    rfl

theorem exFold_desc_canonical (rules : List Rule) (nd : Element)
    (hwf : ∀ r ∈ rules, wellFormed r = true) :
    exFold hideRuleDescendants rules nd = .ok (hideWhereDesc (anyQueryPred rules) nd) := by
  induction rules generalizing nd with
  | nil =>
    show Except.ok nd = _
    rw [show anyQueryPred [] = fun _ => false from rfl, hideWhereDesc_false]
  | cons r rs ih =>
    have hwfr := hwf r (by simp)
    have hstep := hideRuleDescendants_wf_ok nd hwfr
    have ih' := ih (hideWhereDesc (queryPred r) nd)
      (fun x hx => hwf x (List.mem_cons_of_mem _ hx))
    unfold exFold
    rw [hstep]
    dsimp only
    rw [ih']
    rw [hideWhereDesc_comp _ _ (fun _ _ h => anyQueryPred_data h) nd]
    rfl

theorem hideElementsInNode_canonical (rules : List Rule) (nd : Element)
    (hwf : ∀ r ∈ rules, wellFormed r = true) :
    hideElementsInNode rules nd =
      .ok (hideWhereDesc (anyQueryPred rules)
        (if shouldHideNode rules nd then hideElement nd else nd)) := by
  unfold hideElementsInNode
  exact exFold_desc_canonical rules _ hwf

theorem perm_any {α : Type} {l₁ l₂ : List α} (h : l₁.Perm l₂) (f : α → Bool) :
    l₁.any f = l₂.any f := by
  cases ha : l₁.any f <;> cases hb : l₂.any f <;> try rfl
  · rw [List.any_eq_true] at hb
    obtain ⟨x, hx, hfx⟩ := hb
    have hc : l₁.any f = true := List.any_eq_true.mpr ⟨x, h.mem_iff.mpr hx, hfx⟩
    rw [ha] at hc
    cases hc
  · rw [List.any_eq_true] at ha
    obtain ⟨x, hx, hfx⟩ := ha
    have hc : l₂.any f = true := List.any_eq_true.mpr ⟨x, h.mem_iff.mp hx, hfx⟩
    rw [hb] at hc
    cases hc

/-! ### Completeness of the scoped processing of one inserted node -/

theorem hideElementsInNode_hides {rules : List Rule} {n n' : Element} {r : Rule}
    (hok : hideElementsInNode rules n = .ok n') (hr : r ∈ rules)
    (hwf : wellFormed r = true) :
    (matchesRule n r = true → n'.display = "none") ∧
    (∀ path e, atPathE n path = some e → path ≠ [] →
      (if r.type == "href" then hrefSelPred r.value e else matchesRule e r) = true →
      ∃ e', atPathE n' path = some e' ∧ e'.display = "none") := by
  unfold hideElementsInNode at hok
  constructor
  · intro hm
    have hshould : shouldHideNode rules n = true :=
      List.any_eq_true.mpr ⟨r, hr, hm⟩
    rw [if_pos hshould] at hok
    have hev : Evolves (hideElement n) n' :=
      exFold_evolves (fun _ _ _ h => hideRuleDescendants_evolves h) hok
    obtain ⟨e', he', _, ho⟩ := hev [] (hideElement n) (atPathE_nil _)
    rw [atPathE_nil] at he'
    cases he'
    rcases ho with h | h
    · rw [h, hideElement_display]
    · exact h
  · intro path e he hne hm
    cases path with
    | nil => exact absurd rfl hne
    | cons i is =>
      have hn1 : atPathE (if shouldHideNode rules n then hideElement n else n) (i :: is)
          = some e := by
        split
        · rw [atPathE_hideElement_cons]; exact he
        · exact he
      obtain ⟨l₁, l₂, rfl⟩ := List.append_of_mem hr
      obtain ⟨d₁, d₂, h1, h2, h3⟩ := exFold_append_ok hok
      have hev1 : Evolves (if shouldHideNode (l₁ ++ r :: l₂) n then hideElement n else n) d₁ :=
        exFold_evolves (fun _ _ _ h => hideRuleDescendants_evolves h) h1
      obtain ⟨e₁, he₁, hd₁, _⟩ := hev1 (i :: is) e hn1
      have hstep := hideRuleDescendants_wf_ok d₁ hwf
      have hd₂ : d₂ = hideWhereDesc (queryPred r) d₁ := Except.ok.inj (h2.symm.trans hstep)
      have hq : queryPred r e₁ = true := by
        rw [queryPred_data hd₁, queryPred_eq_matches e hwf]
        exact hm
      have he₂ : atPathE d₂ (i :: is) = some (hideWhereAll (queryPred r) e₁) := by
        rw [hd₂, atPathE_hideWhereDesc_cons, he₁]
        rfl
      have hdisp : (hideWhereAll (queryPred r) e₁).display = "none" := by
        rw [hideWhereAll_display, hq]
        rfl
      have hev2 : Evolves d₂ n' :=
        exFold_evolves (fun _ _ _ h => hideRuleDescendants_evolves h) h3
      obtain ⟨e', he', _, ho⟩ := hev2 (i :: is) _ he₂
      refine ⟨e', he', ?_⟩
      rcases ho with h | h
      · rw [h, hdisp]
      · exact h

/-- `sweepState` and `hideAllElements` describe the same sweep: the sweep
completes with result `doc'` exactly when the retained state is `doc'` with
no error. -/
theorem hideAllElements_ok_iff_sweepState :
    ∀ (rules : List Rule) (doc doc' : Element),
      hideAllElements rules doc = .ok doc' ↔ sweepState rules doc = (doc', none) := by
  intro rules
  induction rules with
  | nil =>
    intro doc doc'
    constructor
    · intro h
      cases h
      rfl
    · intro h
      cases h
      rfl
  | cons r rs ih =>
    intro doc doc'
    show exFold applyHideRule (r :: rs) doc = .ok doc' ↔ _
    unfold exFold sweepState
    cases happ : applyHideRule r doc with
    | error e =>
      simp only
      constructor
      · intro h
        cases h
      · intro h
        exact absurd (congrArg Prod.snd h) (by simp)
    | ok d' =>
      simp only
      exact ih d' doc'

/-! ### Index lemma for the batch processing -/

theorem exList_ok_get {α β : Type} (f : α → Except String β) :
    ∀ (l : List α) (l' : List β) (i : Nat) (a : α),
      exList f l = .ok l' → l[i]? = some a → ∃ b, l'[i]? = some b ∧ f a = .ok b := by
  intro l
  induction l with
  | nil =>
    intro l' i a _ hi
    simp at hi
  | cons x xs ih =>
    intro l' i a hok hi
    unfold exList at hok
    split at hok
    · cases hok
    · next b hb =>
      split at hok
      · cases hok
      · next bs hbs =>
        cases hok
        cases i with
        | zero =>
          simp at hi
          cases hi
          exact ⟨b, by simp, hb⟩
        | succ i' =>
          simp only [List.getElem?_cons_succ] at hi ⊢
          exact ih bs i' a hbs hi

/-! ## Claims -/

/-- Claim C1, as stated, fails on the code: an anchor written with a relative
`href` attribute can satisfy `matchesRule` (which reads the resolved `href`
property) while the sweep's attribute-based selector `a[href*=...]` does not
select it.  Here the well-formed rule `{type: href, value: "https"}` matches
the anchor, the sweep completes, and the anchor is left unhidden. -/
theorem c1_counterexample :
    wellFormed ruleHrefHttps = true ∧
    atPathE docHrefGap [0] = some anchorRel ∧
    matchesRule anchorRel ruleHrefHttps = true ∧
    hideAllElements [ruleHrefHttps] docHrefGap = .ok docHrefGap ∧
    anchorRel.display ≠ "none" :=
  ⟨rfl, rfl, rfl, rfl, by decide⟩

/-- Claim C1 (amended): if the sweep `hideAllElements` completes, then every
element present in the document that a well-formed rule `r` selects is hidden
afterwards — where for class/content/title/attribute rules the selection is
exactly `matchesRule`, while for `href` rules it is the attribute-based query
predicate (the literal `href` attribute contains the value), which can differ
from `matchesRule`'s resolved-property check. -/
theorem c1_sweep_completeness (rules : List Rule) (doc doc' : Element) (r : Rule)
    (path : List Nat) (e : Element)
    (hok : hideAllElements rules doc = .ok doc') (hr : r ∈ rules)
    (hwf : wellFormed r = true) (he : atPathE doc path = some e)
    (hm : (if r.type == "href" then hrefSelPred r.value e else matchesRule e r) = true) :
    ∃ e', atPathE doc' path = some e' ∧ e'.display = "none" := by
  unfold hideAllElements at hok
  obtain ⟨l₁, l₂, rfl⟩ := List.append_of_mem hr
  obtain ⟨d₁, d₂, h1, h2, h3⟩ := exFold_append_ok hok
  have hev1 : Evolves doc d₁ := exFold_evolves (fun _ _ _ h => applyHideRule_evolves h) h1
  obtain ⟨e₁, he₁, hd₁, _⟩ := hev1 path e he
  have hstep := applyHideRule_wf_ok d₁ hwf
  have hd₂ : d₂ = hideWhereAll (queryPred r) d₁ := Except.ok.inj (h2.symm.trans hstep)
  have hq : queryPred r e₁ = true := by
    rw [queryPred_data hd₁, queryPred_eq_matches e hwf]
    exact hm
  have he₂ : atPathE d₂ path = some (hideWhereAll (queryPred r) e₁) := by
    rw [hd₂, atPathE_hideWhereAll, he₁]
    rfl
  have hdisp : (hideWhereAll (queryPred r) e₁).display = "none" := by
    rw [hideWhereAll_display, hq]
    rfl
  have hev2 : Evolves d₂ doc' := exFold_evolves (fun _ _ _ h => applyHideRule_evolves h) h3
  obtain ⟨e', he', _, ho⟩ := hev2 path _ he₂
  refine ⟨e', he', ?_⟩
  rcases ho with h | h
  · rw [h, hdisp]
  · exact h

/-- Witness for the amended C1: a class rule hides the matching root. -/
theorem c1_sweep_completeness_witness :
    ∃ e', atPathE docClassAdHidden [] = some e' ∧ e'.display = "none" :=
  c1_sweep_completeness [ruleClassAd] docClassAd docClassAdHidden ruleClassAd [] docClassAd
    rfl (by simp) rfl rfl rfl

/-- Claim C2, as stated, fails on the code: a freshly inserted subtree whose
*descendant* anchor satisfies `matchesRule` via its resolved `href` property
is not hidden by the mutation callback, because descendants are only examined
through the attribute-based query.  The callback completes and returns the
subtree unchanged. -/
theorem c2_counterexample :
    wellFormed ruleHrefHttps = true ∧
    mutationCallback [ruleHrefHttps] [mutIns] = .ok [mutIns] ∧
    atPathE divIns [0] = some anchorRel2 ∧
    matchesRule anchorRel2 ruleHrefHttps = true ∧
    anchorRel2.display ≠ "none" :=
  ⟨rfl, rfl, rfl, rfl, by decide⟩

/-- Claim C2 (amended): if the mutation callback completes on a batch, then
for each element node delivered as added, the node itself is hidden whenever
`matchesRule` holds of it for some well-formed configured rule, and each of
its strict descendants is hidden whenever the rule's query predicate holds of
it (which coincides with `matchesRule` for class/content/title/attribute
rules, but is the literal-attribute check for `href` rules). -/
theorem c2_mutation_completeness (rules : List Rule) (muts outs : List MutationRecord)
    (i j : Nat) (m : MutationRecord) (n : Element) (r : Rule)
    (hok : mutationCallback rules muts = .ok outs) (hm : muts[i]? = some m)
    (ht : m.type = "childList") (hn : m.addedNodes[j]? = some (.element n))
    (hr : r ∈ rules) (hwf : wellFormed r = true) :
    ∃ m' n', outs[i]? = some m' ∧ m'.addedNodes[j]? = some (.element n') ∧
      hideElementsInNode rules n = .ok n' ∧
      (matchesRule n r = true → n'.display = "none") ∧
      (∀ path e, atPathE n path = some e → path ≠ [] →
        (if r.type == "href" then hrefSelPred r.value e else matchesRule e r) = true →
        ∃ e', atPathE n' path = some e' ∧ e'.display = "none") := by
  obtain ⟨m', hm', hpm⟩ := exList_ok_get _ _ _ _ _ hok hm
  unfold processMutation at hpm
  rw [if_pos (by simp [ht])] at hpm
  split at hpm
  · cases hpm
  · next ns hns =>
    cases hpm
    obtain ⟨b, hb, hpa⟩ := exList_ok_get _ _ _ _ _ hns hn
    cases hhin : hideElementsInNode rules n with
    | error err =>
      rw [show processAddedNode rules (.element n) = .error err from by
        simp [processAddedNode, hhin]] at hpa
      cases hpa
    | ok n₂ =>
      rw [show processAddedNode rules (.element n) = .ok (.element n₂) from by
        simp [processAddedNode, hhin]] at hpa
      cases hpa
      have hhide := hideElementsInNode_hides hhin hr hwf
      exact ⟨_, n₂, hm', hb, rfl, hhide.1, hhide.2⟩

/-- Witness for the amended C2: an inserted subtree whose child carries a
matching class is processed and the child is hidden. -/
theorem c2_mutation_completeness_witness :
    ∃ m' n', ([mutInsWAfter] : List MutationRecord)[0]? = some m' ∧
      m'.addedNodes[0]? = some (.element n') ∧
      hideElementsInNode [ruleClassAd] divInsW = .ok n' ∧
      (matchesRule divInsW ruleClassAd = true → n'.display = "none") ∧
      (∀ path e, atPathE divInsW path = some e → path ≠ [] →
        (if ruleClassAd.type == "href" then hrefSelPred ruleClassAd.value e
          else matchesRule e ruleClassAd) = true →
        ∃ e', atPathE n' path = some e' ∧ e'.display = "none") :=
  c2_mutation_completeness [ruleClassAd] [mutInsW] [mutInsWAfter] 0 0 mutInsW divInsW
    ruleClassAd rfl rfl rfl rfl (by simp) rfl

/-- Claim C3, as stated, fails on the code: content.js has no try/catch, so a
rule whose value breaks CSS selector syntax (here a class rule with value
`"("`, interpolated into the invalid selector `.(`) makes `querySelectorAll`
throw; the error propagates out of `hideAllElements` and the following
well-formed rule, which matches an element of the document, is never
applied. -/
theorem c3_counterexample :
    wellFormed ruleClassGood = true ∧
    matchesRule docPromoX ruleClassGood = true ∧
    hideAllElements [ruleBadParen, ruleClassGood] docPromoX = .error "SyntaxError" :=
  ⟨rfl, rfl, rfl⟩

/-- Claim C3 (amended): a rule with an unknown type tag contributes zero
matches and raises no error — both the document-wide sweep step and the
per-node descendant step leave the document unchanged and return normally.
But a rule whose interpolated value breaks CSS selector syntax — witnessed by
the class rule with value `"("`, which interpolates to the invalid selector
`.(` — makes the underlying `querySelectorAll` throw; on every document and
whatever rules follow it, the error surfaces to the caller of the sweep and
the remaining rules of that invocation are never applied. -/
theorem c3_error_policy :
    (∀ (r : Rule) (doc : Element), knownType r.type = false →
      applyHideRule r doc = .ok doc ∧ hideRuleDescendants r doc = .ok doc) ∧
    (∀ (doc : Element) (l : List Rule),
      hideAllElements (ruleBadParen :: l) doc = .error "SyntaxError") := by
  constructor
  · intro r doc hk
    have h1 : ¬ r.type = "class" := fun h => by simp [knownType, h] at hk
    have h2 : ¬ r.type = "href" := fun h => by simp [knownType, h] at hk
    have h3 : ¬ r.type = "content" := fun h => by simp [knownType, h] at hk
    have h4 : ¬ r.type = "title" := fun h => by simp [knownType, h] at hk
    have h5 : ¬ r.type = "attribute" := fun h => by simp [knownType, h] at hk
    constructor
    · simp [applyHideRule, h1, h2, h3, h4, h5]
    · simp [hideRuleDescendants, h1, h2, h3, h4, h5]
  · intro doc l
    unfold hideAllElements exFold
    rw [show applyHideRule ruleBadParen doc = .error "SyntaxError" from rfl]

/-- Witness for the amended C3: an unknown `blink` rule is a no-op on both
paths, and the malformed class rule `"("` aborts a sweep on a concrete
document, never reaching the following well-formed rule. -/
theorem c3_error_policy_witness :
    (applyHideRule ruleUnknownBlink docPromoX = .ok docPromoX ∧
      hideRuleDescendants ruleUnknownBlink docPromoX = .ok docPromoX) ∧
    hideAllElements [ruleBadParen, ruleClassGood] docPromoX = .error "SyntaxError" :=
  ⟨c3_error_policy.1 ruleUnknownBlink docPromoX rfl,
    c3_error_policy.2 docPromoX [ruleClassGood]⟩

/-- Claim C4: the set of hidden nodes only grows.  `hideElement` is
idempotent (`hide(hide(n)) = hide(n)`, no error, no other effect), and
neither the sweep nor the per-node mutation processing ever un-hides a node:
any node whose display is already `"none"` still has display `"none"`
afterwards, at the same tree position. -/
theorem c4_hidden_monotone :
    (∀ n : Element, hideElement (hideElement n) = hideElement n) ∧
    (∀ (rules : List Rule) (doc doc' : Element), hideAllElements rules doc = .ok doc' →
      ∀ path e, atPathE doc path = some e → e.display = "none" →
      ∃ e', atPathE doc' path = some e' ∧ e'.display = "none") ∧
    (∀ (rules : List Rule) (n n' : Element), hideElementsInNode rules n = .ok n' →
      ∀ path e, atPathE n path = some e → e.display = "none" →
      ∃ e', atPathE n' path = some e' ∧ e'.display = "none") := by
  refine ⟨?_, ?_, ?_⟩
  · intro n
    cases n
    rfl
  · intro rules doc doc' hok path e he hd
    have hev : Evolves doc doc' :=
      exFold_evolves (fun _ _ _ h => applyHideRule_evolves h) hok
    obtain ⟨e', he', _, ho⟩ := hev path e he
    refine ⟨e', he', ?_⟩
    rcases ho with h | h
    · rw [h, hd]
    · exact h
  · intro rules n n' hok path e he hd
    unfold hideElementsInNode at hok
    have hev1 : Evolves n (if shouldHideNode rules n then hideElement n else n) := by
      split
      · exact evolves_hideElement n
      · exact evolves_refl n
    have hev2 : Evolves (if shouldHideNode rules n then hideElement n else n) n' :=
      exFold_evolves (fun _ _ _ h => hideRuleDescendants_evolves h) hok
    obtain ⟨e', he', _, ho⟩ := (evolves_trans hev1 hev2) path e he
    refine ⟨e', he', ?_⟩
    rcases ho with h | h
    · rw [h, hd]
    · exact h

/-- Witness for C4: double hiding at a concrete node, and preservation of an
already-hidden node across a sweep. -/
theorem c4_hidden_monotone_witness :
    hideElement (hideElement docPromoX) = hideElement docPromoX ∧
    (∃ e', atPathE docPreHidden [] = some e' ∧ e'.display = "none") :=
  ⟨c4_hidden_monotone.1 docPromoX,
    c4_hidden_monotone.2.1 [ruleClassGood] docPreHidden docPreHidden rfl [] docPreHidden
      rfl rfl⟩

/-- Claim C5: an AttributeRule matches a node iff the node's named attribute
equals the rule's value exactly and case-sensitively.  Concretely, with the
rule `{attr: "data-area", value: "splash"}`: `data-area="splash"` matches and
is hidden by the sweep; `data-area="splash-extra"` does not match and is left
visible (no substring semantics); `data-area="Splash"` does not match (case
sensitivity). -/
theorem c5_attribute_exact :
    (∀ (node : Element) (attr value : String),
      matchesRule node (Rule.mk "attribute" value "" attr) = true ↔
        node.getAttribute attr = some value) ∧
    matchesRule elSplash ruleDataArea = true ∧
    matchesRule elSplashExtra ruleDataArea = false ∧
    matchesRule elSplashCase ruleDataArea = false ∧
    applyHideRule ruleDataArea docSplash = .ok docSplashAfter ∧
    (atPathE docSplashAfter [0]).map Element.display = some "none" ∧
    (atPathE docSplashAfter [1]).map Element.display = some "" := by
  refine ⟨?_, rfl, rfl, rfl, rfl, rfl, rfl⟩
  intro node attr value
  simp [matchesRule]

/-- Witness for C5: the iff instantiated at the splash element. -/
theorem c5_attribute_exact_witness :
    matchesRule elSplash (Rule.mk "attribute" "splash" "" "data-area") = true ↔
      elSplash.getAttribute "data-area" = some "splash" :=
  c5_attribute_exact.1 elSplash "data-area" "splash"

/-- Claim C6, as stated, fails on the code for the sweep/descendant search:
`hideByContent` passes `rule.selector` verbatim to `querySelectorAll`, which
interprets it as CSS, not as a tag name.  With selector `".promo"` (a CSS
class selector) the sweep hides a DIV carrying class `promo`, an element that
the tag-name interpretation (`matchesRule`) rejects. -/
theorem c6_counterexample :
    applyHideRule ruleDotPromo docDotPromo = .ok docDotPromoAfter ∧
    atPathE docDotPromo [0] = some divPromo ∧
    matchesRule divPromo ruleDotPromo = false ∧
    (atPathE docDotPromoAfter [0]).map Element.display = some "none" :=
  ⟨rfl, rfl, rfl, rfl⟩

/-- Claim C6 (amended): in the *self-check*, the selector of a content/title
rule is compared only as a case-insensitive tag name, combined with the
truthiness-guarded case-insensitive substring test on text (resp. title); in
the sweep the selector string is handed to `querySelectorAll` as CSS, which
coincides with the tag-name reading exactly when the selector is a plain tag
name (a CSS identifier).  In that common case a `<span>` whose text contains
the value is hidden while a `<div>` with identical text is not. -/
theorem c6_selector_semantics :
    (∀ (node : Element) (r : Rule), r.type = "content" →
      matchesRule node r = (tagPred r.selector node && contentTextPred r.value node)) ∧
    (∀ (node : Element) (r : Rule), r.type = "title" →
      matchesRule node r = (tagPred r.selector node && titleTextPred r.value node)) ∧
    (∀ (sel kw : String) (doc : Element), isIdent sel = true →
      hideByContent sel kw doc =
        .ok (hideWhereAll (fun el => tagPred sel el && contentTextPred kw el) doc)) ∧
    (∀ (sel kw : String) (doc : Element), isIdent sel = true →
      hideByTitle sel kw doc =
        .ok (hideWhereAll (fun el => tagPred sel el && titleTextPred kw el) doc)) ∧
    (matchesRule spanYB ruleSpanYB = true ∧ matchesRule divYB ruleSpanYB = false ∧
      applyHideRule ruleSpanYB docYB = .ok docYBAfter ∧
      (atPathE docYBAfter [0]).map Element.display = some "none" ∧
      (atPathE docYBAfter [1]).map Element.display = some "") := by
  refine ⟨?_, ?_, ?_, ?_, rfl, rfl, rfl, rfl, rfl⟩
  · intro node r ht
    simp [matchesRule, ht]
  · intro node r ht
    simp [matchesRule, ht]
  · intro sel kw doc hsel
    simp [hideByContent, evalSelector, hsel]
  · intro sel kw doc hsel
    simp [hideByTitle, evalSelector, hsel]

/-- Witness for the amended C6: instantiated at the span scenario. -/
theorem c6_selector_semantics_witness :
    matchesRule spanYB ruleSpanYB =
      (tagPred ruleSpanYB.selector spanYB && contentTextPred ruleSpanYB.value spanYB) ∧
    hideByContent "span" "Yasmin Brunet" docYB =
      .ok (hideWhereAll (fun el => tagPred "span" el && contentTextPred "Yasmin Brunet" el)
        docYB) :=
  ⟨c6_selector_semantics.1 spanYB ruleSpanYB rfl,
    c6_selector_semantics.2.2.1 "span" "Yasmin Brunet" docYB rfl⟩

/-- Claim C7, as stated, fails on the code: it quantifies over every
permutation of the RuleSet, but with a malformed rule in the set, rule order
changes the hidden set.  The DOM keeps the hides performed before a throw,
so sweeping `[bad, good]` over a document matching `good` hides nothing (the
throw comes first), while sweeping the permutation `[good, bad]` hides the
match before throwing. -/
theorem c7_counterexample :
    List.Perm [ruleBadParen, ruleClassGood] [ruleClassGood, ruleBadParen] ∧
    sweepState [ruleBadParen, ruleClassGood] docPromoX = (docPromoX, some "SyntaxError") ∧
    sweepState [ruleClassGood, ruleBadParen] docPromoX =
      (docPromoXHidden, some "SyntaxError") ∧
    matchesRule docPromoX ruleClassGood = true ∧
    docPromoX.display ≠ "none" ∧
    docPromoXHidden.display = "none" :=
  ⟨List.Perm.swap ruleClassGood ruleBadParen [], rfl, rfl, rfl, by decide, rfl⟩

/-- Claim C7 (amended): rule order is irrelevant to the outcome for RuleSets
of well-formed rules — the situation the spec's data model describes; a
malformed rule makes the reachable prefix, and with it the hidden set,
order-dependent.  For any permutation of a RuleSet of well-formed rules, the
sweep produces the same resulting document, and the per-node mutation
processing produces the same resulting subtree (each rule is applied
independently and hides are absorbing). -/
theorem c7_order_independence (rules₁ rules₂ : List Rule) (doc node : Element)
    (hperm : rules₁.Perm rules₂) (hwf : ∀ r ∈ rules₁, wellFormed r = true) :
    hideAllElements rules₁ doc = hideAllElements rules₂ doc ∧
    hideElementsInNode rules₁ node = hideElementsInNode rules₂ node := by
  have hwf₂ : ∀ r ∈ rules₂, wellFormed r = true := fun r hr =>
    hwf r (hperm.mem_iff.mpr hr)
  have hpred : anyQueryPred rules₁ = anyQueryPred rules₂ := by
    funext e
    exact perm_any hperm _
  have hshould : shouldHideNode rules₁ node = shouldHideNode rules₂ node :=
    perm_any hperm _
  constructor
  · rw [hideAllElements_canonical _ _ hwf, hideAllElements_canonical _ _ hwf₂, hpred]
  · rw [hideElementsInNode_canonical _ _ hwf, hideElementsInNode_canonical _ _ hwf₂,
      hpred, hshould]

/-- Witness for C7: swapping two class rules leaves both results unchanged. -/
theorem c7_order_independence_witness :
    hideAllElements [ruleClassA7, ruleClassB7] docPerm =
      hideAllElements [ruleClassB7, ruleClassA7] docPerm ∧
    hideElementsInNode [ruleClassA7, ruleClassB7] docPerm =
      hideElementsInNode [ruleClassB7, ruleClassA7] docPerm :=
  c7_order_independence [ruleClassA7, ruleClassB7] [ruleClassB7, ruleClassA7] docPerm docPerm
    (List.Perm.swap ruleClassB7 ruleClassA7 [])
    (by
      intro r hr
      simp only [List.mem_cons, List.not_mem_nil, or_false] at hr
      rcases hr with rfl | rfl <;> rfl)

/-- Claim C8: the hide action touches only display.  `hideElement` changes
nothing but the node's own display (data and children untouched); and the
tree-wide hiding map preserves every path, every node's observable data, and
leaves the display of every non-selected node exactly as it was — only the
selected nodes' display becomes `"none"`. -/
theorem c8_hide_frame (p : Element → Bool) (doc : Element) :
    (∀ n : Element, (hideElement n).data = n.data ∧ (hideElement n).children = n.children ∧
      (hideElement n).display = "none") ∧
    (∀ path, atPathE doc path = none → atPathE (hideWhereAll p doc) path = none) ∧
    (∀ path e, atPathE doc path = some e →
      ∃ e', atPathE (hideWhereAll p doc) path = some e' ∧ e'.data = e.data ∧
        e'.display = (if p e then "none" else e.display)) := by
  refine ⟨fun n => ⟨hideElement_data n, hideElement_children n, hideElement_display n⟩, ?_, ?_⟩
  · intro path hp
    rw [atPathE_hideWhereAll, hp]
    rfl
  · intro path e he
    refine ⟨hideWhereAll p e, ?_, hideWhereAll_data p e, hideWhereAll_display p e⟩
    rw [atPathE_hideWhereAll, he]
    rfl

/-- Witness for C8: the non-matching child of a concrete document keeps its
data and its display through a hide of the matching root. -/
theorem c8_hide_frame_witness :
    ∃ e', atPathE (hideWhereAll (classPred "x") docFrame) [0] = some e' ∧
      e'.data = elP.data ∧
      e'.display = (if classPred "x" elP then "none" else elP.display) :=
  (c8_hide_frame (classPred "x") docFrame).2.2 [0] elP rfl

/-- Claim C9: an element whose text content (resp. title) is the empty string
never matches a content (resp. title) rule and is never hidden by its sweep,
even when the rule's value is the empty string: the truthiness guard on
`textContent`/`title` is evaluated before the substring test. -/
theorem c9_empty_text_never_matches :
    (∀ (sel val : String) (e : Element), e.data.textContent = "" →
      matchesRule e (Rule.mk "content" val sel "") = false) ∧
    (∀ (sel val : String) (e : Element), e.data.title = "" →
      matchesRule e (Rule.mk "title" val sel "") = false) ∧
    (∀ (sel val : String) (doc doc' : Element) (path : List Nat) (e : Element),
      hideByContent sel val doc = .ok doc' → atPathE doc path = some e →
      e.data.textContent = "" →
      ∃ e', atPathE doc' path = some e' ∧ e'.display = e.display) ∧
    (∀ (sel val : String) (doc doc' : Element) (path : List Nat) (e : Element),
      hideByTitle sel val doc = .ok doc' → atPathE doc path = some e →
      e.data.title = "" →
      ∃ e', atPathE doc' path = some e' ∧ e'.display = e.display) := by
  refine ⟨?_, ?_, ?_, ?_⟩
  · intro sel val e h
    simp [matchesRule, contentTextPred, h]
  · intro sel val e h
    simp [matchesRule, titleTextPred, h]
  · intro sel val doc doc' path e h1 h2 h3
    obtain ⟨q, hq, rfl⟩ := hideByContent_ok h1
    refine ⟨_, by rw [atPathE_hideWhereAll, h2]; rfl, ?_⟩
    rw [hideWhereAll_display]
    have hf : contentTextPred val e = false := by simp [contentTextPred, h3]
    simp [hf]
  · intro sel val doc doc' path e h1 h2 h3
    obtain ⟨q, hq, rfl⟩ := hideByTitle_ok h1
    refine ⟨_, by rw [atPathE_hideWhereAll, h2]; rfl, ?_⟩
    rw [hideWhereAll_display]
    have hf : titleTextPred val e = false := by simp [titleTextPred, h3]
    simp [hf]

/-- Witness for C9: empty-text span against a content rule whose value is the
empty string — no match, and its display survives the sweep unchanged. -/
theorem c9_empty_text_never_matches_witness :
    matchesRule emptyTextSpan (Rule.mk "content" "" "span" "") = false ∧
    (∃ e', atPathE docEmptyText [0] = some e' ∧ e'.display = emptyTextSpan.display) :=
  ⟨c9_empty_text_never_matches.1 "span" "" emptyTextSpan rfl,
    c9_empty_text_never_matches.2.2.1 "span" "" docEmptyText docEmptyText [0] emptyTextSpan
      rfl rfl rfl⟩

/-- Claim C10: the self-check of an href rule holds iff the node is an anchor
(`tagName === 'A'`) whose resolved `href` *property* contains the value; the
sweep and the descendant search instead select via `a[href*=...]`, i.e. by
substring of the literal `href` *attribute*; and the two genuinely disagree
on an anchor whose relative attribute resolves to an absolute URL that
introduces the value. -/
theorem c10_href_property_vs_attribute :
    (∀ (node : Element) (value : String),
      matchesRule node (Rule.mk "href" value "" "") =
        (node.data.tagName == "A" && strContains node.data.href value)) ∧
    (∀ (kw : String) (doc : Element), isQuotable kw = true →
      hideByHref kw doc = .ok (hideWhereAll (hrefSelPred kw) doc)) ∧
    (∀ (kw : String) (node : Element), isQuotable kw = true →
      hideRuleDescendants (Rule.mk "href" kw "" "") node =
        .ok (hideWhereDesc (hrefSelPred kw) node)) ∧
    (∀ (kw : String) (el : Element), kw ≠ "" →
      hrefSelPred kw el = (strUpper el.data.tagName == "A" &&
        (match el.getAttribute "href" with
          | some v => strContains v kw
          | none => false))) ∧
    (matchesRule anchorProm ruleHrefHttps = true ∧
      hrefSelPred "https" anchorProm = false ∧
      applyHideRule ruleHrefHttps docProm = .ok docProm ∧
      atPathE docProm [0] = some anchorProm ∧
      anchorProm.display ≠ "none") := by
  refine ⟨?_, ?_, ?_, ?_, rfl, rfl, rfl, rfl, by decide⟩
  · intro node value
    simp [matchesRule]
  · intro kw doc h
    simp [hideByHref, h]
  · intro kw node h
    simp [hideRuleDescendants, h]
  · intro kw el h
    have hne : (kw == "") = false := by simp [h]
    simp [hrefSelPred, hne]

/-- Witness for C10: the query characterizations instantiated at a concrete
keyword and anchor. -/
theorem c10_href_property_vs_attribute_witness :
    hideByHref "bbb" docProm = .ok (hideWhereAll (hrefSelPred "bbb") docProm) ∧
    hrefSelPred "bbb" anchorProm = (strUpper anchorProm.data.tagName == "A" &&
      (match anchorProm.getAttribute "href" with
        | some v => strContains v "bbb"
        | none => false)) :=
  ⟨c10_href_property_vs_attribute.2.1 "bbb" docProm rfl,
    c10_href_property_vs_attribute.2.2.2.1 "bbb" anchorProm (by decide)⟩
